import Mathlib

/-!
Verification of the Microsoft 365 mail channel adapter (openclaw),
src/extensions/microsoft365/src/channel.ts, against its specification.

JavaScript strings are modelled as lists of Unicode code points
(`MStr := List Nat`); `toLowerCase` is modelled as ASCII case folding and
`trim` as removal of leading/trailing whitespace code points, which is
faithful for the email-address strings this adapter compares.
-/

namespace OpenClawM365

/-- A JavaScript string, modelled as its sequence of code points. -/
abbrev MStr := List Nat

/-- Embed a Lean string literal as an MStr (for concrete test inputs). -/
def mstr (s : String) : MStr := s.data.map Char.toNat

/-- Model of JavaScript per-character lower-casing (ASCII range, as used on
email addresses): uppercase A-Z maps to a-z, all else unchanged. -/
def lowerChar (c : Nat) : Nat := if 65 ≤ c ∧ c ≤ 90 then c + 32 else c

/-- Model of String.prototype.toLowerCase. -/
def toLowerS (s : MStr) : MStr := s.map lowerChar

/-- Whitespace code points removed by String.prototype.trim (tab, LF, VT,
FF, CR, space). -/
def isWsChar (c : Nat) : Bool := decide (c = 9 ∨ c = 10 ∨ c = 11 ∨ c = 12 ∨ c = 13 ∨ c = 32)

/-- Model of String.prototype.trim: drop leading and trailing whitespace. -/
def trimS (s : MStr) : MStr := ((s.dropWhile isWsChar).reverse.dropWhile isWsChar).reverse

/-- The wildcard allow-list entry, the one-character string "*". -/
def star : MStr := [42]

/-- The channel identifier, channel.ts line 338: CHANNEL_ID = "microsoft365". -/
def channelId : MStr := mstr "microsoft365"

/-- Normalization applied by pairing.normalizeAllowEntry, channel.ts line 167:
entry.toLowerCase().trim(). -/
def normalizeAllowEntry (e : MStr) : MStr := trimS (toLowerS e)

/-- Normalization applied inline to config and store allow-list entries,
channel.ts lines 371 and 373: String(e).trim().toLowerCase(). -/
def normalizeListEntry (e : MStr) : MStr := toLowerS (trimS e)

/-- Allow-list resolution, channel.ts lines 371-374: both the config list and
the store list are mapped through trim + toLowerCase, empty strings dropped
(filter(Boolean)), and concatenated config-first. -/
def resolveAllowList (configList storeList : List MStr) : List MStr :=
  (configList.map normalizeListEntry).filter (fun s => !s.isEmpty) ++
  (storeList.map normalizeListEntry).filter (fun s => !s.isEmpty)

/-- The dmPolicy configuration enum, channel.ts line 34. -/
inductive DmPolicy where
  | openPolicy
  | pairing
  | allowlist
deriving DecidableEq, Repr

/-- The string label of a policy mode (used in the drop-log reason). -/
def policyLabel : DmPolicy → MStr
  | .openPolicy => mstr "open"
  | .pairing => mstr "pairing"
  | .allowlist => mstr "allowlist"

/-- A pending pairing request held by the pairing store, keyed by
(channel, sender identity). -/
structure PairingRequest where
  channel : MStr
  id : MStr
  name : Option MStr
  code : Nat
deriving DecidableEq, Repr

/-- Look up the pending request for (channel, id), returning its code. -/
def findRequest : List PairingRequest → MStr → MStr → Option Nat
  | [], _, _ => none
  | r :: rest, ch, i =>
    if r.channel = ch ∧ r.id = i then some r.code else findRequest rest ch i

/-- Modelled from the spec: core.channel.pairing.upsertPairingRequest is
plugin-SDK code not present in src/. Spec 4.2: if a pending request for
(channel, senderIdentity) exists, return its existing code with
created=false; otherwise persist a new request with a fresh code and return
created=true. The fresh code is passed in as a parameter (the generator is
external). Returns ((code, created), new store contents). -/
def upsertPairingRequest (reqs : List PairingRequest) (ch i : MStr)
    (name : Option MStr) (freshCode : Nat) : (Nat × Bool) × List PairingRequest :=
  match findRequest reqs ch i with
  | some c => ((c, false), reqs)
  | none => ((freshCode, true), reqs ++ [⟨ch, i, name, freshCode⟩])

/-- The structured drop record passed to logInboundDrop, channel.ts
lines 407-412. -/
structure DropRecord where
  channel : MStr
  reason : MStr
  target : MStr
deriving DecidableEq, Repr

/-- The outcome of handling one inbound mail event. -/
inductive Outcome where
  | droppedNoSender
  | denied
  | admitted
deriving DecidableEq, Repr

/-- The observable effects of one run of handleIncomingMail, together with
the resulting pairing-store contents. -/
structure HandleResult where
  outcome : Outcome
  pairingReplySent : Bool
  dropLog : Option DropRecord
  markAsReadAttempted : Bool
  sessionRecorded : Bool
  agentInvoked : Bool
  pairingRequests : List PairingRequest
  observedCode : Option Nat
deriving DecidableEq, Repr

/-- An inbound Graph mail message (the fields handleIncomingMail reads for
admission). -/
structure MailMessage where
  fromAddress : Option MStr
  fromName : Option MStr
deriving DecidableEq, Repr

/-- The channel configuration fields handleIncomingMail reads: allowFrom,
dmPolicy (absent means unset), and whether resolveCredentials yields a
refreshToken. -/
structure ChannelCfg where
  allowFrom : List MStr
  dmPolicy : Option DmPolicy
  hasCredentials : Bool
deriving DecidableEq, Repr

/-- Result of the early return on a missing or empty sender address,
channel.ts lines 360-363: log and drop, no other effect. -/
def noSenderResult (reqs : List PairingRequest) : HandleResult where
  outcome := .droppedNoSender
  pairingReplySent := false
  dropLog := none
  markAsReadAttempted := false
  sessionRecorded := false
  agentInvoked := false
  pairingRequests := reqs
  observedCode := none

/-- Result of an admitted event, channel.ts lines 417-517: mark-as-read is
attempted when credentials exist (failure caught), the session is recorded,
and the agent dispatch pipeline runs. -/
def allowedResult (cfg : ChannelCfg) (reqs : List PairingRequest) : HandleResult where
  outcome := .admitted
  pairingReplySent := false
  dropLog := none
  markAsReadAttempted := cfg.hasCredentials
  sessionRecorded := true
  agentInvoked := true
  pairingRequests := reqs
  observedCode := none

/-- The gate test, channel.ts lines 377-379: whether any effective allow-list
entry equals the lower-cased sender address or the wildcard "*". -/
def senderAllowedCheck (cfg : ChannelCfg) (storeRead : Option (List MStr))
    (fromEmail : MStr) : Bool :=
  (resolveAllowList cfg.allowFrom (storeRead.getD [])).any
    fun entry => entry == fromEmail || entry == star

/-- Shallow embedding of handleIncomingMail, channel.ts lines 343-518.
Parameters beyond the message and config: storeRead is the result of
core.channel.pairing.readAllowFromStore (none models a rejected promise,
caught by .catch(() => [])); reqs is the pairing store contents; freshCode
is the code the pairing store would mint for a newly created request. -/
def handleIncomingMail (msg : MailMessage) (cfg : ChannelCfg)
    (storeRead : Option (List MStr)) (reqs : List PairingRequest)
    (freshCode : Nat) : HandleResult :=
  match msg.fromAddress with
  | none => noSenderResult reqs
  | some addr =>
    if toLowerS addr = [] then noSenderResult reqs
    else if cfg.dmPolicy.getD .pairing = .openPolicy then allowedResult cfg reqs
    else if senderAllowedCheck cfg storeRead (toLowerS addr) then allowedResult cfg reqs
    else if cfg.dmPolicy.getD .pairing = .pairing then
      { outcome := .denied
        pairingReplySent :=
          (upsertPairingRequest reqs channelId (toLowerS addr) msg.fromName freshCode).1.2 &&
            cfg.hasCredentials
        dropLog := some ⟨channelId,
          mstr "dmPolicy=" ++ policyLabel (cfg.dmPolicy.getD .pairing), toLowerS addr⟩
        markAsReadAttempted := false
        sessionRecorded := false
        agentInvoked := false
        pairingRequests :=
          (upsertPairingRequest reqs channelId (toLowerS addr) msg.fromName freshCode).2
        observedCode :=
          some (upsertPairingRequest reqs channelId (toLowerS addr) msg.fromName freshCode).1.1 }
    else
      { outcome := .denied
        pairingReplySent := false
        dropLog := some ⟨channelId,
          mstr "dmPolicy=" ++ policyLabel (cfg.dmPolicy.getD .pairing), toLowerS addr⟩
        markAsReadAttempted := false
        sessionRecorded := false
        agentInvoked := false
        pairingRequests := reqs
        observedCode := none }

/-- Security warnings, channel.ts lines 216-226: warn exactly when the
resolved dmPolicy (defaulting to pairing) is open. -/
def collectWarnings (cfg : ChannelCfg) : List MStr :=
  if cfg.dmPolicy.getD .pairing = .openPolicy then
    [mstr "- Microsoft 365 Mail: dmPolicy=\"open\" allows anyone to send emails that trigger the agent. Consider using \"pairing\" or \"allowlist\"."]
  else []

/-! Repeated inbound events from one sender (for the pairing-idempotence
claim): the same message is processed n times, threading the pairing store;
each processing round is handed its own candidate fresh code. -/

def runRepeated (msg : MailMessage) (cfg : ChannelCfg) (storeRead : Option (List MStr)) :
    List Nat → List PairingRequest → List PairingRequest × List HandleResult
  | [], reqs => (reqs, [])
  | code :: codes, reqs =>
    let r := handleIncomingMail msg cfg storeRead reqs code
    let rest := runRepeated msg cfg storeRead codes r.pairingRequests
    (rest.1, r :: rest.2)

/-- Number of pairing requests stored for a given (channel, sender identity). -/
def countRequests (reqs : List PairingRequest) (ch i : MStr) : Nat :=
  (reqs.filter fun r => r.channel == ch && r.id == i).length

/-- A reply fragment handed to the dispatcher: its text and the fragment
kind reported on delivery errors (the info.kind of the onError callback,
channel.ts line 513). -/
structure ReplyFragment where
  text : MStr
  kind : MStr
deriving DecidableEq, Repr

/-- Externally observable events of reply dispatch, in order: a mail reply
sent through the transport, or a delivery error reported through the
onError callback tagged with the fragment kind. -/
inductive DeliveryEvent where
  | sent (text : MStr)
  | errorLogged (kind : MStr)
deriving DecidableEq, Repr

/-- The deliver closure passed to the dispatcher, channel.ts lines 499-512:
a blank (whitespace-only) text returns without sending; missing credentials
logs and returns without sending; otherwise replyToMail is awaited and may
throw. Returns (texts sent, completed-without-throwing); sendOk models
whether the transport send succeeds for a given text. -/
def deliverFragment (hasCredentials : Bool) (sendOk : MStr → Bool)
    (f : ReplyFragment) : List MStr × Bool :=
  if trimS f.text = [] then ([], true)
  else if !hasCredentials then ([], true)
  else if sendOk f.text then ([f.text], true)
  else ([], false)

/-- Modelled from the spec: dispatchReplyWithBufferedBlockDispatcher
(plugin SDK, not in src/). Spec 4.5: fragments are delivered in emission
order, each delivery awaited before the next; a delivery failure is caught,
reported via the onError callback tagged with the fragment kind, and
dispatch continues with the next fragment. Returns the ordered list of
observable events. -/
def dispatchReply (hasCredentials : Bool) (sendOk : MStr → Bool) :
    List ReplyFragment → List DeliveryEvent
  | [] => []
  | f :: rest =>
    (match deliverFragment hasCredentials sendOk f with
      | (sent, true) => sent.map DeliveryEvent.sent
      | (sent, false) => sent.map DeliveryEvent.sent ++ [DeliveryEvent.errorLogged f.kind]) ++
      dispatchReply hasCredentials sendOk rest

/-! Normalization lemmas: ASCII lower-casing and whitespace trimming commute,
and each is idempotent, so trim-then-lower and lower-then-trim agree and the
composite is idempotent. -/

theorem lowerChar_idem (c : Nat) : lowerChar (lowerChar c) = lowerChar c := by
  unfold lowerChar
  split_ifs <;> omega

theorem isWsChar_lowerChar (c : Nat) : isWsChar (lowerChar c) = isWsChar c := by
  unfold lowerChar isWsChar
  split_ifs with h
  · simp only [decide_eq_decide]
    omega
  · rfl

theorem toLowerS_idem (s : MStr) : toLowerS (toLowerS s) = toLowerS s := by
  unfold toLowerS
  rw [List.map_map]
  congr 1
  funext c
  exact lowerChar_idem c

theorem trimS_eq_rdropWhile (s : MStr) :
    trimS s = List.rdropWhile isWsChar (s.dropWhile isWsChar) := rfl

theorem dropWhile_trimS (s : MStr) : (trimS s).dropWhile isWsChar = trimS s := by
  rw [trimS_eq_rdropWhile]
  rcases hu : List.rdropWhile isWsChar (s.dropWhile isWsChar) with _ | ⟨a, u⟩
  · rfl
  · have hpre : List.rdropWhile isWsChar (s.dropWhile isWsChar) <+: s.dropWhile isWsChar :=
      List.rdropWhile_prefix _ _
    rw [hu] at hpre
    obtain ⟨r, hr⟩ := hpre
    have hne : s.dropWhile isWsChar ≠ [] := by
      rw [← hr]; simp
    have hhead : (s.dropWhile isWsChar).head? = some a := by
      rw [← hr]; rfl
    have hws : isWsChar a = false := by
      have h1 := List.head_dropWhile_not isWsChar s hne
      rw [List.head?_eq_head hne] at hhead
      injection hhead with h2
      rw [h2] at h1
      exact h1
    exact List.dropWhile_cons_of_neg (by simp [hws])

theorem trimS_idem (s : MStr) : trimS (trimS s) = trimS s := by
  rw [trimS_eq_rdropWhile (trimS s), dropWhile_trimS, trimS_eq_rdropWhile s,
    List.rdropWhile_idempotent]

theorem toLowerS_trimS (s : MStr) : toLowerS (trimS s) = trimS (toLowerS s) := by
  have hcomp : (isWsChar ∘ lowerChar) = isWsChar := funext isWsChar_lowerChar
  unfold trimS toLowerS
  rw [List.dropWhile_map, hcomp, ← List.map_reverse, List.dropWhile_map, hcomp,
    ← List.map_reverse]

/-- The two normalization spellings in the source, channel.ts line 167
(toLowerCase then trim) and lines 371/373 (trim then toLowerCase), agree. -/
theorem normalizeAllowEntry_eq_normalizeListEntry (e : MStr) :
    normalizeAllowEntry e = normalizeListEntry e := by
  unfold normalizeAllowEntry normalizeListEntry
  rw [toLowerS_trimS]

theorem normalizeListEntry_idem (e : MStr) :
    normalizeListEntry (normalizeListEntry e) = normalizeListEntry e := by
  unfold normalizeListEntry
  calc toLowerS (trimS (toLowerS (trimS e)))
      = toLowerS (toLowerS (trimS (trimS e))) := by rw [← toLowerS_trimS]
    _ = toLowerS (toLowerS (trimS e)) := by rw [trimS_idem]
    _ = toLowerS (trimS e) := toLowerS_idem _

/-- Every member of a resolved allow-list is a fixed point of normalization
and non-empty. -/
theorem mem_resolveAllowList {y : MStr} {c s : List MStr}
    (hy : y ∈ resolveAllowList c s) :
    normalizeListEntry y = y ∧ y.isEmpty = false := by
  unfold resolveAllowList at hy
  rcases List.mem_append.mp hy with h | h <;>
  · obtain ⟨hm, hq⟩ := List.mem_filter.mp h
    obtain ⟨e, _, he⟩ := List.mem_map.mp hm
    refine ⟨?_, ?_⟩
    · rw [← he]; exact normalizeListEntry_idem e
    · simpa using hq

theorem resolveAllowList_resolve_self (c s : List MStr) :
    resolveAllowList (resolveAllowList c s) [] = resolveAllowList c s := by
  have hmap : (resolveAllowList c s).map normalizeListEntry = resolveAllowList c s := by
    have h1 : (resolveAllowList c s).map normalizeListEntry =
        (resolveAllowList c s).map id :=
      List.map_congr_left fun y hy => (mem_resolveAllowList hy).1
    rw [h1, List.map_id]
  have hfil : (resolveAllowList c s).filter (fun t => !t.isEmpty) = resolveAllowList c s := by
    rw [List.filter_eq_self]
    intro y hy
    simp [(mem_resolveAllowList hy).2]
  show ((resolveAllowList c s).map normalizeListEntry).filter (fun t => !t.isEmpty) ++
      (([] : List MStr).map normalizeListEntry).filter (fun t => !t.isEmpty) =
      resolveAllowList c s
  rw [hmap, hfil]
  simp

/-! Gate-branch lemmas for handleIncomingMail. -/

theorem toLowerS_ne_nil {addr : MStr} (hne : addr ≠ []) : toLowerS addr ≠ [] := by
  unfold toLowerS
  simpa using hne

theorem senderAllowedCheck_eq_true_iff (cfg : ChannelCfg) (storeRead : Option (List MStr))
    (f : MStr) :
    senderAllowedCheck cfg storeRead f = true ↔
      f ∈ resolveAllowList cfg.allowFrom (storeRead.getD []) ∨
      star ∈ resolveAllowList cfg.allowFrom (storeRead.getD []) := by
  unfold senderAllowedCheck
  rw [List.any_eq_true]
  constructor
  · rintro ⟨e, he, hcond⟩
    rcases Bool.or_eq_true_iff.mp hcond with h | h
    · exact Or.inl (by rwa [eq_of_beq h] at he)
    · exact Or.inr (by rwa [eq_of_beq h] at he)
  · rintro (h | h)
    · exact ⟨f, h, by simp⟩
    · exact ⟨star, h, by simp⟩

theorem handle_open (msg : MailMessage) (addr : MStr) (cfg : ChannelCfg)
    (storeRead : Option (List MStr)) (reqs : List PairingRequest) (freshCode : Nat)
    (hfrom : msg.fromAddress = some addr) (hne : addr ≠ [])
    (hpol : cfg.dmPolicy.getD .pairing = .openPolicy) :
    handleIncomingMail msg cfg storeRead reqs freshCode = allowedResult cfg reqs := by
  simp only [handleIncomingMail, hfrom]
  rw [if_neg (toLowerS_ne_nil hne), if_pos hpol]

theorem handle_allowed (msg : MailMessage) (addr : MStr) (cfg : ChannelCfg)
    (storeRead : Option (List MStr)) (reqs : List PairingRequest) (freshCode : Nat)
    (hfrom : msg.fromAddress = some addr) (hne : addr ≠ [])
    (hallow : senderAllowedCheck cfg storeRead (toLowerS addr) = true) :
    handleIncomingMail msg cfg storeRead reqs freshCode = allowedResult cfg reqs := by
  simp only [handleIncomingMail, hfrom]
  rw [if_neg (toLowerS_ne_nil hne)]
  by_cases hpol : cfg.dmPolicy.getD .pairing = .openPolicy
  · rw [if_pos hpol]
  · rw [if_neg hpol, hallow, if_pos rfl]

theorem handle_pairing_deny (msg : MailMessage) (addr : MStr) (cfg : ChannelCfg)
    (storeRead : Option (List MStr)) (reqs : List PairingRequest) (freshCode : Nat)
    (hfrom : msg.fromAddress = some addr) (hne : addr ≠ [])
    (hpol : cfg.dmPolicy.getD .pairing = .pairing)
    (hallow : senderAllowedCheck cfg storeRead (toLowerS addr) = false) :
    handleIncomingMail msg cfg storeRead reqs freshCode =
      { outcome := .denied
        pairingReplySent :=
          (upsertPairingRequest reqs channelId (toLowerS addr) msg.fromName freshCode).1.2 &&
            cfg.hasCredentials
        dropLog := some ⟨channelId, mstr "dmPolicy=" ++ policyLabel .pairing, toLowerS addr⟩
        markAsReadAttempted := false
        sessionRecorded := false
        agentInvoked := false
        pairingRequests :=
          (upsertPairingRequest reqs channelId (toLowerS addr) msg.fromName freshCode).2
        observedCode :=
          some (upsertPairingRequest reqs channelId (toLowerS addr) msg.fromName freshCode).1.1 } := by
  simp only [handleIncomingMail, hfrom, hpol]
  rw [if_neg (toLowerS_ne_nil hne), if_neg (by decide : ¬(DmPolicy.pairing = DmPolicy.openPolicy)),
    hallow]
  simp

theorem handle_allowlist_deny (msg : MailMessage) (addr : MStr) (cfg : ChannelCfg)
    (storeRead : Option (List MStr)) (reqs : List PairingRequest) (freshCode : Nat)
    (hfrom : msg.fromAddress = some addr) (hne : addr ≠ [])
    (hpol : cfg.dmPolicy.getD .pairing = .allowlist)
    (hallow : senderAllowedCheck cfg storeRead (toLowerS addr) = false) :
    handleIncomingMail msg cfg storeRead reqs freshCode =
      { outcome := .denied
        pairingReplySent := false
        dropLog := some ⟨channelId, mstr "dmPolicy=" ++ policyLabel .allowlist, toLowerS addr⟩
        markAsReadAttempted := false
        sessionRecorded := false
        agentInvoked := false
        pairingRequests := reqs
        observedCode := none } := by
  simp only [handleIncomingMail, hfrom, hpol]
  rw [if_neg (toLowerS_ne_nil hne), if_neg (by decide : ¬(DmPolicy.allowlist = DmPolicy.openPolicy)),
    hallow]
  simp

theorem countRequests_eq_zero (reqs : List PairingRequest) (ch i : MStr)
    (h : findRequest reqs ch i = none) : countRequests reqs ch i = 0 := by
  induction reqs with
  | nil => rfl
  | cons r rest ih =>
    unfold findRequest at h
    split_ifs at h with hc
    have hcond : (r.channel == ch && r.id == i) = false := by
      by_cases h1 : r.channel = ch <;> by_cases h2 : r.id = i <;>
        simp [h1, h2] at hc ⊢
    unfold countRequests at ih ⊢
    rw [List.filter_cons_of_neg (by simp [hcond])]
    exact ih h

theorem countRequests_append_match (reqs : List PairingRequest) (ch i : MStr)
    (name : Option MStr) (code : Nat) :
    countRequests (reqs ++ [⟨ch, i, name, code⟩]) ch i = countRequests reqs ch i + 1 := by
  unfold countRequests
  rw [List.filter_append, List.length_append]
  simp [List.filter]

theorem findRequest_append_self (reqs : List PairingRequest) (ch i : MStr)
    (name : Option MStr) (code : Nat) (h : findRequest reqs ch i = none) :
    findRequest (reqs ++ [⟨ch, i, name, code⟩]) ch i = some code := by
  induction reqs with
  | nil => simp [findRequest]
  | cons r rest ih =>
    rw [List.cons_append]
    unfold findRequest at h ⊢
    split_ifs at h ⊢ with hc
    exact ih h

theorem upsert_existing (reqs : List PairingRequest) (ch i : MStr) (name : Option MStr)
    (freshCode c : Nat) (h : findRequest reqs ch i = some c) :
    upsertPairingRequest reqs ch i name freshCode = ((c, false), reqs) := by
  unfold upsertPairingRequest
  rw [h]

theorem upsert_fresh (reqs : List PairingRequest) (ch i : MStr) (name : Option MStr)
    (freshCode : Nat) (h : findRequest reqs ch i = none) :
    upsertPairingRequest reqs ch i name freshCode =
      ((freshCode, true), reqs ++ [⟨ch, i, name, freshCode⟩]) := by
  unfold upsertPairingRequest
  rw [h]

/-- Steady state: once a pending request with code c exists for the sender,
every further pairing-gated event leaves the store unchanged, sends no
pairing reply, and observes the same code c. -/
theorem runRepeated_steady (msg : MailMessage) (addr : MStr) (cfg : ChannelCfg)
    (storeRead : Option (List MStr)) (c : Nat)
    (hfrom : msg.fromAddress = some addr) (hne : addr ≠ [])
    (hpol : cfg.dmPolicy.getD .pairing = .pairing)
    (hallow : senderAllowedCheck cfg storeRead (toLowerS addr) = false)
    (codes : List Nat) (reqs : List PairingRequest)
    (hexist : findRequest reqs channelId (toLowerS addr) = some c) :
    (runRepeated msg cfg storeRead codes reqs).1 = reqs ∧
    ∀ r ∈ (runRepeated msg cfg storeRead codes reqs).2,
      r.pairingReplySent = false ∧ r.observedCode = some c := by
  induction codes with
  | nil => exact ⟨rfl, by simp [runRepeated]⟩
  | cons code codes ih =>
    have hstep : handleIncomingMail msg cfg storeRead reqs code =
        { outcome := .denied
          pairingReplySent := false
          dropLog := some ⟨channelId, mstr "dmPolicy=" ++ policyLabel .pairing, toLowerS addr⟩
          markAsReadAttempted := false
          sessionRecorded := false
          agentInvoked := false
          pairingRequests := reqs
          observedCode := some c } := by
      rw [handle_pairing_deny msg addr cfg storeRead reqs code hfrom hne hpol hallow,
        upsert_existing reqs channelId (toLowerS addr) msg.fromName code c hexist]
      simp
    obtain ⟨ih1, ih2⟩ := ih
    constructor
    · show (runRepeated msg cfg storeRead (code :: codes) reqs).1 = reqs
      simp only [runRepeated, hstep]
      exact ih1
    · intro r hr
      simp only [runRepeated, hstep, List.mem_cons] at hr
      rcases hr with hr | hr
      · rw [hr]
        exact ⟨rfl, rfl⟩
      · exact ih2 r hr

/-! Claim theorems. -/

/-- C1 counterexample: with policy pairing and allow-list containing only the
wildcard "*", the sender bob@x.com is admitted (the agent is invoked) even
though bob@x.com is not an element of the effective allow-list — refuting the
claim that under pairing mode admission happens iff the sender identity
itself is listed and that the wildcard alone does not admit. -/
theorem wildcard_admits_under_pairing_cex :
    (handleIncomingMail ⟨some (mstr "bob@x.com"), none⟩
      ⟨[mstr "*"], some DmPolicy.pairing, true⟩ (some []) [] 0).agentInvoked = true ∧
    mstr "bob@x.com" ∉ resolveAllowList [mstr "*"] [] := by decide

/-- C1 (amended): under policy pairing, an inbound event with a non-empty
sender is admitted iff the lower-cased sender address is in the effective
allow-list or the wildcard "*" is in the effective allow-list; whenever the
gate does not admit, the event is denied and the agent is never invoked. -/
theorem pairing_gate_admits_iff (msg : MailMessage) (addr : MStr) (cfg : ChannelCfg)
    (storeRead : Option (List MStr)) (reqs : List PairingRequest) (freshCode : Nat)
    (hfrom : msg.fromAddress = some addr) (hne : addr ≠ [])
    (hpol : cfg.dmPolicy.getD .pairing = .pairing) :
    ((handleIncomingMail msg cfg storeRead reqs freshCode).agentInvoked = true ↔
      toLowerS addr ∈ resolveAllowList cfg.allowFrom (storeRead.getD []) ∨
      star ∈ resolveAllowList cfg.allowFrom (storeRead.getD [])) ∧
    ((handleIncomingMail msg cfg storeRead reqs freshCode).agentInvoked = false →
      (handleIncomingMail msg cfg storeRead reqs freshCode).outcome = .denied) := by
  cases hallow : senderAllowedCheck cfg storeRead (toLowerS addr) with
  | true =>
    rw [handle_allowed msg addr cfg storeRead reqs freshCode hfrom hne hallow]
    refine ⟨?_, ?_⟩
    · simp only [allowedResult, true_iff]
      exact (senderAllowedCheck_eq_true_iff cfg storeRead (toLowerS addr)).mp hallow
    · intro hfalse
      simp [allowedResult] at hfalse
  | false =>
    rw [handle_pairing_deny msg addr cfg storeRead reqs freshCode hfrom hne hpol hallow]
    have hnot : ¬(toLowerS addr ∈ resolveAllowList cfg.allowFrom (storeRead.getD []) ∨
        star ∈ resolveAllowList cfg.allowFrom (storeRead.getD [])) := fun h => by
      rw [(senderAllowedCheck_eq_true_iff cfg storeRead (toLowerS addr)).mpr h] at hallow
      simp at hallow
    exact ⟨by simp [hnot], fun _ => rfl⟩

/-- C1 witness: the amended theorem applied at a concrete admitted sender. -/
theorem pairing_gate_admits_iff_witness :
    ((⟨some (mstr "ann@x.com"), none⟩ : MailMessage).fromAddress = some (mstr "ann@x.com") ∧
     mstr "ann@x.com" ≠ ([] : MStr) ∧
     ((⟨[mstr "ann@x.com"], some DmPolicy.pairing, true⟩ : ChannelCfg).dmPolicy.getD
        DmPolicy.pairing = DmPolicy.pairing)) ∧
    (((handleIncomingMail ⟨some (mstr "ann@x.com"), none⟩
        ⟨[mstr "ann@x.com"], some DmPolicy.pairing, true⟩ (some []) [] 0).agentInvoked = true ↔
      toLowerS (mstr "ann@x.com") ∈ resolveAllowList [mstr "ann@x.com"] [] ∨
      star ∈ resolveAllowList [mstr "ann@x.com"] []) ∧
     ((handleIncomingMail ⟨some (mstr "ann@x.com"), none⟩
        ⟨[mstr "ann@x.com"], some DmPolicy.pairing, true⟩ (some []) [] 0).agentInvoked = false →
      (handleIncomingMail ⟨some (mstr "ann@x.com"), none⟩
        ⟨[mstr "ann@x.com"], some DmPolicy.pairing, true⟩ (some []) [] 0).outcome = .denied)) :=
  ⟨⟨rfl, by decide, rfl⟩,
   pairing_gate_admits_iff ⟨some (mstr "ann@x.com"), none⟩ (mstr "ann@x.com")
     ⟨[mstr "ann@x.com"], some DmPolicy.pairing, true⟩ (some []) [] 0 rfl (by decide) rfl⟩

/-- C2: idempotent pairing (pairing-store upsert modelled from spec 4.2):
for a sender not in the effective allow-list under policy pairing, with no
pending request initially and credentials present, any run of one-or-more
repeated inbound events yields exactly one stored pairing request for
(channel, sender), exactly one pairing reply (sent on the first event, when
created=true), and every event observes the same code — the first event's
fresh code; later fresh-code candidates are ignored. -/
theorem pairing_idempotent (msg : MailMessage) (addr : MStr) (cfg : ChannelCfg)
    (storeRead : Option (List MStr)) (reqs : List PairingRequest)
    (c0 : Nat) (codes : List Nat)
    (hfrom : msg.fromAddress = some addr) (hne : addr ≠ [])
    (hpol : cfg.dmPolicy.getD .pairing = .pairing)
    (hcred : cfg.hasCredentials = true)
    (hallow : senderAllowedCheck cfg storeRead (toLowerS addr) = false)
    (hfresh : findRequest reqs channelId (toLowerS addr) = none) :
    countRequests (runRepeated msg cfg storeRead (c0 :: codes) reqs).1 channelId
      (toLowerS addr) = 1 ∧
    ((runRepeated msg cfg storeRead (c0 :: codes) reqs).2.filter
      (fun r => r.pairingReplySent)).length = 1 ∧
    ∀ r ∈ (runRepeated msg cfg storeRead (c0 :: codes) reqs).2,
      r.observedCode = some c0 := by
  have hstep : handleIncomingMail msg cfg storeRead reqs c0 =
      { outcome := .denied
        pairingReplySent := true
        dropLog := some ⟨channelId, mstr "dmPolicy=" ++ policyLabel .pairing, toLowerS addr⟩
        markAsReadAttempted := false
        sessionRecorded := false
        agentInvoked := false
        pairingRequests := reqs ++ [⟨channelId, toLowerS addr, msg.fromName, c0⟩]
        observedCode := some c0 } := by
    rw [handle_pairing_deny msg addr cfg storeRead reqs c0 hfrom hne hpol hallow,
      upsert_fresh reqs channelId (toLowerS addr) msg.fromName c0 hfresh]
    simp [hcred]
  have hexist : findRequest (reqs ++ [⟨channelId, toLowerS addr, msg.fromName, c0⟩])
      channelId (toLowerS addr) = some c0 :=
    findRequest_append_self reqs channelId (toLowerS addr) msg.fromName c0 hfresh
  obtain ⟨hsteady1, hsteady2⟩ := runRepeated_steady msg addr cfg storeRead c0 hfrom hne hpol
    hallow codes (reqs ++ [⟨channelId, toLowerS addr, msg.fromName, c0⟩]) hexist
  refine ⟨?_, ?_, ?_⟩
  · simp only [runRepeated, hstep]
    rw [hsteady1, countRequests_append_match,
      countRequests_eq_zero reqs channelId (toLowerS addr) hfresh]
  · simp only [runRepeated, hstep]
    rw [List.filter_cons_of_pos (by simp)]
    have hnil : ((runRepeated msg cfg storeRead codes
        (reqs ++ [⟨channelId, toLowerS addr, msg.fromName, c0⟩])).2.filter
        (fun r => r.pairingReplySent)) = [] := by
      rw [List.filter_eq_nil_iff]
      intro r hr
      simp [(hsteady2 r hr).1]
    rw [hnil]
    rfl
  · intro r hr
    simp only [runRepeated, hstep, List.mem_cons] at hr
    rcases hr with hr | hr
    · rw [hr]
    · exact (hsteady2 r hr).2

/-- C2 witness: two repeated events from one unapproved sender, applied at a
concrete input. -/
theorem pairing_idempotent_witness :
    ((⟨some (mstr "new@x.com"), none⟩ : MailMessage).fromAddress = some (mstr "new@x.com") ∧
     mstr "new@x.com" ≠ ([] : MStr) ∧
     ((⟨[], some DmPolicy.pairing, true⟩ : ChannelCfg).dmPolicy.getD DmPolicy.pairing =
       DmPolicy.pairing) ∧
     (⟨[], some DmPolicy.pairing, true⟩ : ChannelCfg).hasCredentials = true ∧
     senderAllowedCheck ⟨[], some DmPolicy.pairing, true⟩ (some [])
       (toLowerS (mstr "new@x.com")) = false ∧
     findRequest [] channelId (toLowerS (mstr "new@x.com")) = none) ∧
    (countRequests (runRepeated ⟨some (mstr "new@x.com"), none⟩
        ⟨[], some DmPolicy.pairing, true⟩ (some []) [5, 9] []).1 channelId
        (toLowerS (mstr "new@x.com")) = 1 ∧
     ((runRepeated ⟨some (mstr "new@x.com"), none⟩ ⟨[], some DmPolicy.pairing, true⟩
        (some []) [5, 9] []).2.filter (fun r => r.pairingReplySent)).length = 1 ∧
     ∀ r ∈ (runRepeated ⟨some (mstr "new@x.com"), none⟩ ⟨[], some DmPolicy.pairing, true⟩
        (some []) [5, 9] []).2, r.observedCode = some 5) :=
  ⟨⟨rfl, by decide, rfl, rfl, by decide, rfl⟩,
   pairing_idempotent ⟨some (mstr "new@x.com"), none⟩ (mstr "new@x.com")
     ⟨[], some DmPolicy.pairing, true⟩ (some []) [] 5 [9] rfl (by decide) rfl rfl
     (by decide) rfl⟩

/-- C3: the inbound sender address is only lower-cased (channel.ts line 353),
while allow-list entries are trimmed and lower-cased (lines 371/373); the two
normalizations differ, and a sender whose raw address carries surrounding
whitespace is denied even though its trim+lower-case form is on the
allow-list (the "stuck gate" the spec calls a security bug). -/
theorem sender_normalization_mismatch :
    toLowerS (mstr " Alice@Example.com ") ≠ normalizeListEntry (mstr " Alice@Example.com ") ∧
    normalizeListEntry (mstr " Alice@Example.com ") = mstr "alice@example.com" ∧
    (handleIncomingMail ⟨some (mstr " Alice@Example.com "), none⟩
      ⟨[mstr "alice@example.com"], some DmPolicy.allowlist, true⟩ (some []) [] 0).outcome =
      Outcome.denied := by decide

/-- C4: ordered, failure-isolated reply dispatch (dispatcher loop modelled
from spec 4.5; the deliver closure is from channel.ts lines 499-512): for
fragments A, B, C with non-blank texts where delivering B fails, the
observable event sequence is exactly: A sent, then B's failure reported via
onError tagged with B's kind, then C sent — the failure neither aborts C nor
escapes the dispatch call. -/
theorem dispatch_ordered_isolated (A B C : ReplyFragment) (sendOk : MStr → Bool)
    (hA : trimS A.text ≠ []) (hB : trimS B.text ≠ []) (hC : trimS C.text ≠ [])
    (hokA : sendOk A.text = true) (hfailB : sendOk B.text = false)
    (hokC : sendOk C.text = true) :
    dispatchReply true sendOk [A, B, C] =
      [DeliveryEvent.sent A.text, DeliveryEvent.errorLogged B.kind,
       DeliveryEvent.sent C.text] := by
  simp [dispatchReply, deliverFragment, hA, hB, hC, hokA, hfailB, hokC]

/-- C4 witness: the dispatch theorem applied at concrete fragments where the
middle send fails. -/
theorem dispatch_ordered_isolated_witness :
    (trimS (⟨mstr "alpha", mstr "block"⟩ : ReplyFragment).text ≠ [] ∧
     trimS (⟨mstr "beta", mstr "block"⟩ : ReplyFragment).text ≠ [] ∧
     trimS (⟨mstr "gamma", mstr "final"⟩ : ReplyFragment).text ≠ [] ∧
     (fun t => !(t == mstr "beta")) (mstr "alpha") = true ∧
     (fun t => !(t == mstr "beta")) (mstr "beta") = false ∧
     (fun t => !(t == mstr "beta")) (mstr "gamma") = true) ∧
    dispatchReply true (fun t => !(t == mstr "beta"))
      [⟨mstr "alpha", mstr "block"⟩, ⟨mstr "beta", mstr "block"⟩,
       ⟨mstr "gamma", mstr "final"⟩] =
      [DeliveryEvent.sent (mstr "alpha"), DeliveryEvent.errorLogged (mstr "block"),
       DeliveryEvent.sent (mstr "gamma")] :=
  ⟨by decide,
   dispatch_ordered_isolated ⟨mstr "alpha", mstr "block"⟩ ⟨mstr "beta", mstr "block"⟩
     ⟨mstr "gamma", mstr "final"⟩ (fun t => !(t == mstr "beta")) (by decide) (by decide)
     (by decide) (by decide) (by decide) (by decide)⟩

/-- C5: under policy open, every inbound event with a non-empty sender address
is admitted: the agent pipeline runs, no pairing-store operation happens
(the request list is returned unchanged and no code is observed), no pairing
reply is sent, and no drop record is emitted — for every allow-list and
store content. -/
theorem open_policy_admits_all (msg : MailMessage) (addr : MStr) (cfg : ChannelCfg)
    (storeRead : Option (List MStr)) (reqs : List PairingRequest) (freshCode : Nat)
    (hfrom : msg.fromAddress = some addr) (hne : addr ≠ [])
    (hpol : cfg.dmPolicy = some DmPolicy.openPolicy) :
    (handleIncomingMail msg cfg storeRead reqs freshCode).outcome = .admitted ∧
    (handleIncomingMail msg cfg storeRead reqs freshCode).agentInvoked = true ∧
    (handleIncomingMail msg cfg storeRead reqs freshCode).pairingRequests = reqs ∧
    (handleIncomingMail msg cfg storeRead reqs freshCode).observedCode = none ∧
    (handleIncomingMail msg cfg storeRead reqs freshCode).pairingReplySent = false ∧
    (handleIncomingMail msg cfg storeRead reqs freshCode).dropLog = none := by
  rw [handle_open msg addr cfg storeRead reqs freshCode hfrom hne (by rw [hpol]; rfl)]
  exact ⟨rfl, rfl, rfl, rfl, rfl, rfl⟩

/-- C5 witness: the open-policy theorem applied at a concrete input. -/
theorem open_policy_admits_all_witness :
    ((⟨some (mstr "x@y.com"), none⟩ : MailMessage).fromAddress = some (mstr "x@y.com") ∧
     mstr "x@y.com" ≠ ([] : MStr) ∧
     (⟨[], some DmPolicy.openPolicy, false⟩ : ChannelCfg).dmPolicy =
       some DmPolicy.openPolicy) ∧
    ((handleIncomingMail ⟨some (mstr "x@y.com"), none⟩ ⟨[], some DmPolicy.openPolicy, false⟩
        none [] 3).outcome = .admitted ∧
     (handleIncomingMail ⟨some (mstr "x@y.com"), none⟩ ⟨[], some DmPolicy.openPolicy, false⟩
        none [] 3).agentInvoked = true ∧
     (handleIncomingMail ⟨some (mstr "x@y.com"), none⟩ ⟨[], some DmPolicy.openPolicy, false⟩
        none [] 3).pairingRequests = [] ∧
     (handleIncomingMail ⟨some (mstr "x@y.com"), none⟩ ⟨[], some DmPolicy.openPolicy, false⟩
        none [] 3).observedCode = none ∧
     (handleIncomingMail ⟨some (mstr "x@y.com"), none⟩ ⟨[], some DmPolicy.openPolicy, false⟩
        none [] 3).pairingReplySent = false ∧
     (handleIncomingMail ⟨some (mstr "x@y.com"), none⟩ ⟨[], some DmPolicy.openPolicy, false⟩
        none [] 3).dropLog = none) :=
  ⟨⟨rfl, by decide, rfl⟩,
   open_policy_admits_all ⟨some (mstr "x@y.com"), none⟩ (mstr "x@y.com")
     ⟨[], some DmPolicy.openPolicy, false⟩ none [] 3 rfl (by decide) rfl⟩

/-- C6: on every deny decision (resolved policy not open, sender present and
not admitted), a structured drop record with channel "microsoft365", reason
"dmPolicy=" followed by the active mode label, and the lower-cased sender as
target is emitted; and no mark-as-read, no session write and no agent
invocation occur. -/
theorem deny_emits_drop_record (msg : MailMessage) (addr : MStr) (cfg : ChannelCfg)
    (storeRead : Option (List MStr)) (reqs : List PairingRequest) (freshCode : Nat)
    (hfrom : msg.fromAddress = some addr) (hne : addr ≠ [])
    (hpol : cfg.dmPolicy.getD .pairing ≠ .openPolicy)
    (hallow : senderAllowedCheck cfg storeRead (toLowerS addr) = false) :
    (handleIncomingMail msg cfg storeRead reqs freshCode).dropLog =
      some ⟨channelId, mstr "dmPolicy=" ++ policyLabel (cfg.dmPolicy.getD .pairing),
        toLowerS addr⟩ ∧
    (handleIncomingMail msg cfg storeRead reqs freshCode).outcome = .denied ∧
    (handleIncomingMail msg cfg storeRead reqs freshCode).markAsReadAttempted = false ∧
    (handleIncomingMail msg cfg storeRead reqs freshCode).sessionRecorded = false ∧
    (handleIncomingMail msg cfg storeRead reqs freshCode).agentInvoked = false := by
  cases hp : cfg.dmPolicy.getD DmPolicy.pairing with
  | openPolicy => exact absurd hp hpol
  | pairing =>
    rw [handle_pairing_deny msg addr cfg storeRead reqs freshCode hfrom hne hp hallow]
    exact ⟨rfl, rfl, rfl, rfl, rfl⟩
  | allowlist =>
    rw [handle_allowlist_deny msg addr cfg storeRead reqs freshCode hfrom hne hp hallow]
    exact ⟨rfl, rfl, rfl, rfl, rfl⟩

/-- C6 witness: the deny drop-record theorem applied at a concrete denied
sender under allowlist policy. -/
theorem deny_emits_drop_record_witness :
    ((⟨some (mstr "eve@z.com"), none⟩ : MailMessage).fromAddress = some (mstr "eve@z.com") ∧
     mstr "eve@z.com" ≠ ([] : MStr) ∧
     (⟨[mstr "a@b.com"], some DmPolicy.allowlist, true⟩ : ChannelCfg).dmPolicy.getD
       DmPolicy.pairing ≠ DmPolicy.openPolicy ∧
     senderAllowedCheck ⟨[mstr "a@b.com"], some DmPolicy.allowlist, true⟩ (some [])
       (toLowerS (mstr "eve@z.com")) = false) ∧
    ((handleIncomingMail ⟨some (mstr "eve@z.com"), none⟩
        ⟨[mstr "a@b.com"], some DmPolicy.allowlist, true⟩ (some []) [] 0).dropLog =
      some ⟨channelId, mstr "dmPolicy=" ++ policyLabel ((⟨[mstr "a@b.com"],
        some DmPolicy.allowlist, true⟩ : ChannelCfg).dmPolicy.getD DmPolicy.pairing),
        toLowerS (mstr "eve@z.com")⟩ ∧
     (handleIncomingMail ⟨some (mstr "eve@z.com"), none⟩
        ⟨[mstr "a@b.com"], some DmPolicy.allowlist, true⟩ (some []) [] 0).outcome = .denied ∧
     (handleIncomingMail ⟨some (mstr "eve@z.com"), none⟩
        ⟨[mstr "a@b.com"], some DmPolicy.allowlist, true⟩ (some []) [] 0).markAsReadAttempted
        = false ∧
     (handleIncomingMail ⟨some (mstr "eve@z.com"), none⟩
        ⟨[mstr "a@b.com"], some DmPolicy.allowlist, true⟩ (some []) [] 0).sessionRecorded
        = false ∧
     (handleIncomingMail ⟨some (mstr "eve@z.com"), none⟩
        ⟨[mstr "a@b.com"], some DmPolicy.allowlist, true⟩ (some []) [] 0).agentInvoked
        = false) :=
  ⟨⟨rfl, by decide, by decide, by decide⟩,
   deny_emits_drop_record ⟨some (mstr "eve@z.com"), none⟩ (mstr "eve@z.com")
     ⟨[mstr "a@b.com"], some DmPolicy.allowlist, true⟩ (some []) [] 0 rfl (by decide)
     (by decide) (by decide)⟩

/-- C7 counterexample: allow-list resolution does not drop duplicates — the
spec's own example input produces a two-element list containing
"foo@bar.com" twice. -/
theorem resolve_keeps_duplicates_cex :
    resolveAllowList [mstr "Foo@Bar.com", mstr " foo@bar.com "] [] =
      [mstr "foo@bar.com", mstr "foo@bar.com"] ∧
    ¬(resolveAllowList [mstr "Foo@Bar.com", mstr " foo@bar.com "] []).Nodup := by decide

/-- C7 (amended): allow-list resolution trims, lower-cases, drops empty
strings and concatenates config entries before store entries, without
removing duplicates; viewed as a membership set the spec's example yields
exactly the singleton "foo@bar.com", and the member-set is invariant under
re-applying resolution. -/
theorem resolveAllowList_set_semantics :
    (∀ x, x ∈ resolveAllowList [mstr "Foo@Bar.com", mstr " foo@bar.com "] [] ↔
      x = mstr "foo@bar.com") ∧
    (∀ configList storeList (x : MStr),
      x ∈ resolveAllowList (resolveAllowList configList storeList) [] ↔
      x ∈ resolveAllowList configList storeList) := by
  constructor
  · intro x
    rw [show resolveAllowList [mstr "Foo@Bar.com", mstr " foo@bar.com "] [] =
        [mstr "foo@bar.com", mstr "foo@bar.com"] from by decide]
    simp
  · intro configList storeList x
    rw [resolveAllowList_resolve_self]

/-- C8: a failed read of the dynamic allow-list store is never fatal — the
handler behaves exactly as if the store had returned the empty list, and the
effective allow-list is then the normalized static config list alone. -/
theorem store_read_failure_degrades (msg : MailMessage) (cfg : ChannelCfg)
    (reqs : List PairingRequest) (freshCode : Nat) :
    handleIncomingMail msg cfg none reqs freshCode =
      handleIncomingMail msg cfg (some []) reqs freshCode ∧
    resolveAllowList cfg.allowFrom [] =
      (cfg.allowFrom.map normalizeListEntry).filter (fun s => !s.isEmpty) :=
  ⟨rfl, by simp [resolveAllowList]⟩

/-- C9: an inbound event with no sender address is logged and dropped without
raising: no pairing request is created, no session record is written, no
reply is sent, and the agent is never invoked. -/
theorem missing_sender_dropped (msg : MailMessage) (cfg : ChannelCfg)
    (storeRead : Option (List MStr)) (reqs : List PairingRequest) (freshCode : Nat)
    (h : msg.fromAddress = none) :
    handleIncomingMail msg cfg storeRead reqs freshCode = noSenderResult reqs ∧
    (noSenderResult reqs).outcome = .droppedNoSender ∧
    (noSenderResult reqs).pairingRequests = reqs ∧
    (noSenderResult reqs).pairingReplySent = false ∧
    (noSenderResult reqs).sessionRecorded = false ∧
    (noSenderResult reqs).agentInvoked = false := by
  refine ⟨?_, rfl, rfl, rfl, rfl, rfl⟩
  simp [handleIncomingMail, h]

/-- C9 witness: the missing-sender theorem applied at a concrete input. -/
theorem missing_sender_dropped_witness :
    ((⟨none, some (mstr "Ghost")⟩ : MailMessage).fromAddress = none ∧
     handleIncomingMail ⟨none, some (mstr "Ghost")⟩ ⟨[], none, true⟩ (some []) [] 1 =
       noSenderResult [] ∧
     (noSenderResult ([] : List PairingRequest)).outcome = .droppedNoSender ∧
     (noSenderResult ([] : List PairingRequest)).pairingRequests = [] ∧
     (noSenderResult ([] : List PairingRequest)).pairingReplySent = false ∧
     (noSenderResult ([] : List PairingRequest)).sessionRecorded = false ∧
     (noSenderResult ([] : List PairingRequest)).agentInvoked = false) :=
  ⟨rfl, (missing_sender_dropped ⟨none, some (mstr "Ghost")⟩ ⟨[], none, true⟩ (some []) [] 1
    rfl).1,
   rfl, rfl, rfl, rfl, rfl⟩

/-- C10: when dmPolicy is absent from the configuration, the handler behaves
identically to an explicit dmPolicy = pairing, and the security-warning
computation uses the same default (an unset policy never behaves as open). -/
theorem default_dm_policy_is_pairing (msg : MailMessage) (allowFrom : List MStr) (hc : Bool)
    (storeRead : Option (List MStr)) (reqs : List PairingRequest) (freshCode : Nat) :
    handleIncomingMail msg ⟨allowFrom, none, hc⟩ storeRead reqs freshCode =
      handleIncomingMail msg ⟨allowFrom, some DmPolicy.pairing, hc⟩ storeRead reqs freshCode ∧
    collectWarnings ⟨allowFrom, none, hc⟩ =
      collectWarnings ⟨allowFrom, some DmPolicy.pairing, hc⟩ :=
  ⟨rfl, rfl⟩

end OpenClawM365
